import Mathlib

/-!
Verification of the agent-inbox task tracker against its specification.

The development shallowly embeds the Rust sources:
* `src/models/task.rs` — task record, status strings, title truncation
  (strings are modelled at the byte level where slicing matters);
* `src/db/mod.rs` — the SQLite-backed store, modelled as a list of rows
  with the same column set; JSON columns are modelled abstractly as either
  a well-formed document of the corresponding type or malformed text;
* `src/monitor/mod.rs` — the per-poll idle accounting of the task monitor;
* `src/bin/agent-bridge.rs` — the length-prefixed message reader.

Timestamps are modelled as a pair of whole seconds and nanoseconds, with
`timestamp` returning the whole seconds, exactly as `chrono`'s
`DateTime<Utc>::timestamp` does for the values stored in the table.
-/

namespace AgentInbox

/-- A point in time: Unix seconds plus a sub-second nanosecond part.
`chrono::DateTime<Utc>` carries sub-second precision; the store keeps only
whole seconds. -/
structure DateTime where
  sec : Int
  nsec : Nat
deriving DecidableEq

/-- `DateTime::timestamp()`: the whole seconds since the epoch. -/
def DateTime.timestamp (d : DateTime) : Int := d.sec

/-- A JSON value as `serde_json::Value`: used only as opaque payload of the
`extra` and `metadata` maps, which the program never inspects. -/
inductive JsonValue
  | null
  | bool (b : Bool)
  | num (n : Int)
  | str (s : String)
  | arr (elems : List JsonValue)
  | obj (fields : List (String × JsonValue))

/-- `HashMap<String, serde_json::Value>` modelled as an association list. -/
def Metadata := List (String × JsonValue)

/-- `TaskContext` of `src/models/task.rs`. -/
structure TaskContext where
  url : Option String
  project_path : Option String
  session_id : Option String
  extra : Metadata

/-- A TEXT column that is supposed to hold JSON for values of type `α`:
either the well-formed serialization of a value (what `serde_json::to_string`
writes and `serde_json::from_str` reads back) or malformed text.  `raw` tags
distinct malformed contents. -/
inductive JsonCol (α : Type)
  | wellFormed (value : α)
  | malformed (raw : Nat)

/-- `serde_json::from_str(&s).ok()`: a well-formed document parses to its
value, malformed text to `none`. -/
def JsonCol.decode : JsonCol α → Option α
  | .wellFormed v => some v
  | .malformed _ => none

/-- `TaskStatus` of `src/models/task.rs` (the three-state model compiled
into the store code). -/
inductive TaskStatus
  | Running
  | Completed
  | Exited
deriving DecidableEq

/-- `TaskStatus::as_str`. -/
def TaskStatus.as_str : TaskStatus → String
  | .Running => "running"
  | .Completed => "completed"
  | .Exited => "exited"

/-- `TaskStatus::from_str`, including the legacy aliases. -/
def TaskStatus.from_str (s : String) : Except String TaskStatus :=
  match s with
  | "running" => .ok .Running
  | "completed" => .ok .Completed
  | "exited" => .ok .Exited
  | "needs_attention" => .ok .Completed
  | "failed" => .ok .Exited
  | _ => .error ("Invalid task status: " ++ s)

/-- `Task` of `src/models/task.rs`. -/
structure Task where
  id : Option Int
  task_id : String
  agent_type : String
  title : String
  status : TaskStatus
  created_at : DateTime
  updated_at : DateTime
  completed_at : Option DateTime
  pid : Option Int
  ppid : Option Int
  monitor_pid : Option Int
  attention_reason : Option String
  exit_code : Option Int
  context : Option TaskContext
  metadata : Option Metadata

/-! ## Title truncation (`Task::truncate_title`), at the byte level

Rust strings are UTF-8 byte vectors; `title.len()` counts bytes and
`&title[..k]` slices at a byte offset, panicking when `k` is not a
character boundary.  A title is therefore modelled as its list of bytes,
and the truncation returns `none` exactly when `Task::new` panics. -/

/-- `str::is_char_boundary(i)`: true at 0 and at the length, and at any
index holding a byte that is not a UTF-8 continuation byte. -/
def is_char_boundary (s : List Nat) (i : Nat) : Bool :=
  if i = 0 then true
  else
    match s.get? i with
    | some b => decide (b < 128) || decide (192 ≤ b)
    | none => decide (i = s.length)

/-- `Task::truncate_title`: keep a title of at most `max_len` bytes,
otherwise slice at byte `max_len - 3` and append `"..."` (bytes 46,46,46).
`none` models the panic of `&title[..max_len-3]` on a non-boundary index. -/
def truncate_title (title : List Nat) (max_len : Nat) : Option (List Nat) :=
  if title.length ≤ max_len then some title
  else if is_char_boundary title (max_len - 3) then
    some (title.take (max_len - 3) ++ [46, 46, 46])
  else none

/-- The title field `Task::new` stores: `Self::truncate_title(&title, 100)`.
`none` models a panic during task creation. -/
def Task.new_title (title : List Nat) : Option (List Nat) :=
  truncate_title title 100

/-- Number of UTF-8 characters of a byte string: the count of its
non-continuation bytes. -/
def utf8_length (s : List Nat) : Nat :=
  (s.filter (fun b => decide (b < 128) || decide (192 ≤ b))).length

/-! ## The task store (`src/db/mod.rs`)

One table of rows; `id` is the rowid SQLite assigns.  `context` and
`metadata` are TEXT columns holding JSON. -/

/-- One row of the `tasks` table, typed as the code reads it back. -/
structure Row where
  id : Int
  task_id : String
  agent_type : String
  title : String
  status : String
  created_at : Int
  updated_at : Int
  completed_at : Option Int
  pid : Option Int
  ppid : Option Int
  monitor_pid : Option Int
  attention_reason : Option String
  exit_code : Option Int
  context : Option (JsonCol TaskContext)
  metadata : Option (JsonCol Metadata)

/-- The store: the rows in insertion order plus the next rowid. -/
structure Database where
  rows : List Row
  next_id : Int

/-- A freshly created store. -/
def Database.empty : Database := ⟨[], 1⟩

/-- The row `Database::insert_task` writes for a task, given the rowid the
engine assigns: status as its string, timestamps as whole seconds, context
and metadata serialized with `serde_json::to_string`. -/
def task_to_row (id : Int) (task : Task) : Row :=
  { id := id
    task_id := task.task_id
    agent_type := task.agent_type
    title := task.title
    status := task.status.as_str
    created_at := task.created_at.timestamp
    updated_at := task.updated_at.timestamp
    completed_at := task.completed_at.map DateTime.timestamp
    pid := task.pid
    ppid := task.ppid
    monitor_pid := task.monitor_pid
    attention_reason := task.attention_reason
    exit_code := task.exit_code
    context := task.context.map JsonCol.wellFormed
    metadata := task.metadata.map JsonCol.wellFormed }

/-- `Database::insert_task`: fails on the UNIQUE constraint when the
`task_id` is already present, otherwise appends the row and returns
`last_insert_rowid()`. -/
def insert_task (db : Database) (task : Task) : Except String (Database × Int) :=
  if db.rows.any (fun r => r.task_id == task.task_id) then
    Except.error "UNIQUE constraint failed: tasks.task_id"
  else
    Except.ok
      ({ rows := db.rows ++ [task_to_row db.next_id task], next_id := db.next_id + 1 },
        db.next_id)

/-- The columns `Database::update_task` sets on a row whose `task_id`
matches: every column of the UPDATE statement; `id`, `task_id` and
`created_at` are not in its SET list and keep the stored value. -/
def update_row (r : Row) (task : Task) : Row :=
  { r with
    agent_type := task.agent_type
    title := task.title
    status := task.status.as_str
    updated_at := task.updated_at.timestamp
    completed_at := task.completed_at.map DateTime.timestamp
    pid := task.pid
    ppid := task.ppid
    monitor_pid := task.monitor_pid
    attention_reason := task.attention_reason
    exit_code := task.exit_code
    context := task.context.map JsonCol.wellFormed
    metadata := task.metadata.map JsonCol.wellFormed }

/-- `Database::update_task`: run the UPDATE keyed by `task_id` and return
`Ok(())` — the affected-row count is not inspected. -/
def update_task (db : Database) (task : Task) : Except String Database :=
  Except.ok
    { db with
      rows := db.rows.map (fun r => if r.task_id == task.task_id then update_row r task else r) }

/-- `Database::row_to_task`: tolerant JSON decoding for `context` and
`metadata`, hard error for an unrecognized `status` string, timestamps read
back at whole-second precision. -/
def row_to_task (r : Row) : Except String Task :=
  let context := r.context.bind JsonCol.decode
  let metadata := r.metadata.bind JsonCol.decode
  match TaskStatus.from_str r.status with
  | Except.error e => Except.error e
  | Except.ok status =>
      Except.ok
        { id := some r.id
          task_id := r.task_id
          agent_type := r.agent_type
          title := r.title
          status := status
          created_at := ⟨r.created_at, 0⟩
          updated_at := ⟨r.updated_at, 0⟩
          completed_at := r.completed_at.map (fun ts => ⟨ts, 0⟩)
          pid := r.pid
          ppid := r.ppid
          monitor_pid := r.monitor_pid
          attention_reason := r.attention_reason
          exit_code := r.exit_code
          context := context
          metadata := metadata }

/-- `Database::get_task_by_id`: the first row with that `task_id`, decoded;
absence is `Ok(None)`, a row whose status fails to parse is an error. -/
def get_task_by_id (db : Database) (task_id : String) : Except String (Option Task) :=
  match db.rows.find? (fun r => r.task_id == task_id) with
  | none => Except.ok none
  | some r => (row_to_task r).map some

/-- The WHERE clause of `Database::cleanup_old_completed`:
`status = 'completed' AND completed_at < cutoff` (a NULL `completed_at`
never satisfies the comparison). -/
def completed_deletable (r : Row) (cutoff : Int) : Bool :=
  r.status == "completed" &&
    (match r.completed_at with
     | some ts => decide (ts < cutoff)
     | none => false)

/-- `Database::cleanup_old_completed`: delete the matching rows and return
the affected-row count. -/
def cleanup_old_completed (db : Database) (now older_than_secs : Int) : Database × Nat :=
  let cutoff := now - older_than_secs
  let kept := db.rows.filter (fun r => !(completed_deletable r cutoff))
  ({ db with rows := kept }, db.rows.length - kept.length)

/-- Insert a task, then fetch it back by its `task_id` (the round-trip the
store tests perform). -/
def insert_then_get (db : Database) (task : Task) : Except String (Option Task) :=
  match insert_task db task with
  | Except.error e => Except.error e
  | Except.ok (db1, _) => get_task_by_id db1 task.task_id

/-! ## The monitor's per-poll idle accounting (`src/monitor/mod.rs`)

`TaskMonitor::monitor_task` keeps ONE mutable `TaskContext` for the whole
monitored tree, initialized from the root pid.  Each poll it samples every
pid in the tree, derives a candidate idle duration for each from that single
shared context, hands it to the detectors, and finally refreshes the shared
context from the root pid's sample alone.  CPU samples are `Option Nat`
(unreadable yields `None`); durations are in seconds. -/

namespace Monitor

/-- `detectors::TaskContext` as `monitor_task` uses it. -/
structure TaskContext where
  pid : Int
  last_check : Nat
  last_cpu_time : Option Nat
  idle_duration : Nat

/-- The context `monitor_task` builds before its loop: root pid, the root's
initial CPU sample, idle duration zero. -/
def init_context (pid : Int) (now : Nat) (cpu : Int → Option Nat) : TaskContext :=
  { pid := pid, last_check := now, last_cpu_time := cpu pid, idle_duration := 0 }

/-- The `check_idle_duration` computed for a sampled process inside the
poll loop: when the process's current sample and the stored previous sample
are both present, equal samples extend the stored idle duration by one poll
interval and unequal samples give zero; with either sample missing the
stored idle duration is passed through. -/
def check_idle_duration (ctx : TaskContext) (current_cpu : Option Nat)
    (poll_interval : Nat) : Nat :=
  match current_cpu, ctx.last_cpu_time with
  | some curr, some last =>
      if curr = last then ctx.idle_duration + poll_interval else 0
  | _, _ => ctx.idle_duration

/-- The `check_context` handed to the detectors for one pid of the tree. -/
def check_context (ctx : TaskContext) (check_pid : Int) (current_cpu : Option Nat)
    (poll_interval : Nat) : TaskContext :=
  { pid := check_pid
    last_check := ctx.last_check
    last_cpu_time := current_cpu
    idle_duration := check_idle_duration ctx current_cpu poll_interval }

/-- The end-of-poll update of the shared context: idle duration and stored
sample refreshed from the ROOT pid's current sample only. -/
def update_context (ctx : TaskContext) (current_cpu : Option Nat) (now : Nat)
    (poll_interval : Nat) : TaskContext :=
  { ctx with
    last_check := now
    last_cpu_time := current_cpu
    idle_duration := check_idle_duration ctx current_cpu poll_interval }

/-- One poll's effect on the shared context, with `cpu` the poll's sampling
of cumulative CPU time per pid: `update_context` at the root's sample. -/
def poll_step (ctx : TaskContext) (cpu : Int → Option Nat) (now : Nat)
    (poll_interval : Nat) : TaskContext :=
  update_context ctx (cpu ctx.pid) now poll_interval

/-- `TaskMonitor::new` sets a five-second poll interval. -/
def default_poll_interval : Nat := 5

end Monitor

/-! ## The bridge's message reader (`src/bin/agent-bridge.rs`) -/

/-- `u32::from_le_bytes` on the four length bytes. -/
def u32_from_le_bytes (b0 b1 b2 b3 : Nat) : Nat :=
  b0 + 256 * b1 + 65536 * b2 + 16777216 * b3

/-- `read_message` over the byte stream on stdin: read the 4-byte
little-endian length, reject a length over 1 MiB before touching the body,
otherwise read exactly that many bytes; the returned bytes are what
`serde_json::from_slice` is then given. -/
def read_message (input : List Nat) : Except String (List Nat) :=
  match input with
  | b0 :: b1 :: b2 :: b3 :: rest =>
      let length := u32_from_le_bytes b0 b1 b2 b3
      if 1048576 < length then Except.error "Message too large"
      else if rest.length < length then Except.error "Failed to read message body"
      else Except.ok (rest.take length)
  | _ => Except.error "Failed to read message length"

/-! ## The four-state task model the rest of the program calls

`main.rs`, `monitor/mod.rs` and `bin/agent-bridge.rs` call
`Task::complete(exit_code)` and `Task::needs_attention(reason)` and match on
`TaskStatus::Failed` / `TaskStatus::NeedsAttention`; the checked-in
`models/task.rs` holds the older three-state model, so the four-state task
implementation itself is not among the repository's files.  It is modelled
here from the specification (§3, §4.1). -/

namespace Spec

/-- Modelled from the spec: the four-state `TaskStatus`
{Running, Completed, NeedsAttention, Failed} of §3, whose implementation is
missing from the sources (only callers such as `main.rs` and
`monitor/mod.rs` reference `Failed` and `NeedsAttention`). -/
inductive TaskStatus
  | Running
  | Completed
  | NeedsAttention
  | Failed
deriving DecidableEq

/-- Modelled from the spec: the `Task` record of §3 under the four-state
status model. -/
structure Task where
  id : Option Int
  task_id : String
  agent_type : String
  title : String
  status : TaskStatus
  created_at : DateTime
  updated_at : DateTime
  completed_at : Option DateTime
  pid : Option Int
  ppid : Option Int
  monitor_pid : Option Int
  attention_reason : Option String
  exit_code : Option Int
  context : Option TaskContext
  metadata : Option Metadata

/-- Modelled from the spec: `complete(exit_code?)` of §4.1 — "status =
Failed if exit_code present and non-zero, else Completed; sets
completed_at=now, updated_at=now, records exit_code".  Its implementation
is missing from the sources; `main.rs` and the bridge call it. -/
def Task.complete (t : Task) (exit_code : Option Int) (now : DateTime) : Task :=
  { t with
    status :=
      match exit_code with
      | some c => if c ≠ 0 then TaskStatus.Failed else TaskStatus.Completed
      | none => TaskStatus.Completed
    completed_at := some now
    updated_at := now
    exit_code := exit_code }

/-- Modelled from the spec: `mark_needs_attention(reason)` of §4.1 —
"status=NeedsAttention, attention_reason=reason, updated_at=now; does not
touch completed_at".  Its implementation is missing from the sources;
`main.rs`, the monitor and the bridge call it as `needs_attention`. -/
def Task.mark_needs_attention (t : Task) (reason : String) (now : DateTime) : Task :=
  { t with
    status := TaskStatus.NeedsAttention
    attention_reason := some reason
    updated_at := now }

end Spec

/-! ## Concrete sample values used by witnesses and counterexamples -/

/-- A freshly created task as `Task::new("t1", "claude_code", ...)` yields,
except that its creation instant carries one nanosecond of sub-second
precision (as `Utc::now()` generally does). -/
def task0 : Task :=
  { id := none
    task_id := "t1"
    agent_type := "claude_code"
    title := "Test task"
    status := TaskStatus.Running
    created_at := ⟨0, 1⟩
    updated_at := ⟨0, 0⟩
    completed_at := none
    pid := some 1234
    ppid := none
    monitor_pid := none
    attention_reason := none
    exit_code := none
    context := none
    metadata := none }

/-- `task0` after external completion, for exercising `update_task`. -/
def task1 : Task :=
  { task0 with
    title := "Updated"
    status := TaskStatus.Completed
    updated_at := ⟨7, 0⟩
    completed_at := some ⟨7, 0⟩
    exit_code := some 0 }

/-- A stored row whose `context` and `metadata` columns hold malformed
JSON but whose status string is valid. -/
def row_bad_json : Row :=
  { id := 1
    task_id := "b1"
    agent_type := "claude_code"
    title := "t"
    status := "running"
    created_at := 0
    updated_at := 0
    completed_at := none
    pid := none
    ppid := none
    monitor_pid := none
    attention_reason := none
    exit_code := none
    context := some (JsonCol.malformed 0)
    metadata := some (JsonCol.malformed 1) }

/-- A stored row whose status string is not a recognized status. -/
def row_bad_status : Row :=
  { row_bad_json with
    id := 2
    task_id := "b2"
    status := "paused"
    context := none
    metadata := none }

/-- A Completed row whose `completed_at` lies far in the past. -/
def row_completed_old : Row :=
  { row_bad_json with
    id := 3
    task_id := "c1"
    status := "completed"
    completed_at := some 0
    context := none
    metadata := none }

/-- A Running row, equally old. -/
def row_running : Row :=
  { row_bad_json with
    id := 4
    task_id := "r1"
    status := "running"
    completed_at := some 0
    context := none
    metadata := none }

/-- A store holding one old Completed row and one old Running row. -/
def db2 : Database := ⟨[row_completed_old, row_running], 5⟩

/-- A 101-byte title whose byte 97 is the continuation byte of a two-byte
character (96 ASCII bytes, then U+00E9, then three ASCII bytes). -/
def c5_bad_title : List Nat := List.replicate 96 97 ++ [195, 169] ++ [98, 98, 98]

/-- A title of 98 characters but 101 bytes (95 ASCII bytes then three
copies of the two-byte character U+00E9); byte 97 is a character start. -/
def c10_chars_title : List Nat := List.replicate 95 97 ++ [195, 169, 195, 169, 195, 169]

/-- A 101-byte title whose byte 97 sits inside a multi-byte character. -/
def c10_panic_title : List Nat := List.replicate 96 97 ++ [195, 169] ++ [100, 100, 100]

/-- The per-poll CPU sampling of a two-process tree: root pid 1 reads 10
ticks at every poll, child pid 2 reads 7 ticks at every poll. -/
def c2_cpu : Int → Option Nat := fun p => if p = 1 then some 10 else some 7

/-- The monitor's shared context right after initialization for root 1. -/
def c2_ctx0 : Monitor.TaskContext := Monitor.init_context 1 0 c2_cpu

/-- The shared context after the first poll (root sample unchanged). -/
def c2_ctx1 : Monitor.TaskContext :=
  Monitor.poll_step c2_ctx0 c2_cpu 5 Monitor.default_poll_interval

/-- A four-state task in its initial state, for the spec-modelled
operations. -/
def spec_task0 : Spec.Task :=
  { id := none
    task_id := "s1"
    agent_type := "claude_code"
    title := "Spec task"
    status := Spec.TaskStatus.Running
    created_at := ⟨0, 0⟩
    updated_at := ⟨0, 0⟩
    completed_at := none
    pid := none
    ppid := none
    monitor_pid := none
    attention_reason := none
    exit_code := none
    context := none
    metadata := none }

/-! ## Helper lemmas -/

theorem from_str_as_str (s : TaskStatus) : TaskStatus.from_str s.as_str = Except.ok s := by
  cases s <;> rfl

theorem map_wellFormed_bind_decode {α : Type} (o : Option α) :
    (o.map JsonCol.wellFormed).bind JsonCol.decode = o := by
  cases o <;> rfl

theorem any_eq_false_of {α : Type} (l : List α) (p : α → Bool)
    (h : ∀ x ∈ l, p x = false) : l.any p = false := by
  induction l with
  | nil => rfl
  | cons a l ih =>
      simp [h a (List.mem_cons_self a l), ih (fun x hx => h x (List.mem_cons_of_mem a hx))]

theorem find?_append_singleton {α : Type} (l : List α) (p : α → Bool) (a : α)
    (h : ∀ x ∈ l, p x = false) (ha : p a = true) :
    (l ++ [a]).find? p = some a := by
  induction l with
  | nil => simp [List.find?, ha]
  | cons b l ih =>
      have hb := h b (List.mem_cons_self b l)
      simp [List.find?, hb, ih (fun x hx => h x (List.mem_cons_of_mem b hx))]

theorem map_id_of {α : Type} (l : List α) (f : α → α) (h : ∀ x ∈ l, f x = x) :
    l.map f = l := by
  induction l with
  | nil => rfl
  | cons a l ih =>
      simp [h a (List.mem_cons_self a l), ih (fun x hx => h x (List.mem_cons_of_mem a hx))]

theorem completed_deletable_iff (r : Row) (c : Int) :
    completed_deletable r c = true ↔
      r.status = "completed" ∧ ∃ ts, r.completed_at = some ts ∧ ts < c := by
  cases h : r.completed_at <;> simp [completed_deletable, h]

theorem mem_cleanup_iff (db : Database) (now secs : Int) (r : Row) :
    r ∈ (cleanup_old_completed db now secs).1.rows ↔
      r ∈ db.rows ∧
        ¬(r.status = "completed" ∧ ∃ ts, r.completed_at = some ts ∧ ts < now - secs) := by
  have hrows : (cleanup_old_completed db now secs).1.rows =
      db.rows.filter (fun x => !(completed_deletable x (now - secs))) := rfl
  rw [hrows, List.mem_filter, Bool.not_eq_true', ← Bool.not_eq_true, completed_deletable_iff]

/-! ## The claims -/

/-- C1: for every task and every optional exit_code, `complete(exit_code)`
sets the status to Failed iff the exit code is present and non-zero and to
Completed otherwise; afterwards `completed_at` is set and the given exit
code is recorded on the task. -/
theorem c1_complete_spec (t : Spec.Task) (exit_code : Option Int) (now : DateTime) :
    ((Spec.Task.complete t exit_code now).status = Spec.TaskStatus.Failed ↔
        ∃ c, exit_code = some c ∧ c ≠ 0)
    ∧ ((Spec.Task.complete t exit_code now).status = Spec.TaskStatus.Completed ↔
        ¬∃ c, exit_code = some c ∧ c ≠ 0)
    ∧ (Spec.Task.complete t exit_code now).completed_at = some now
    ∧ (Spec.Task.complete t exit_code now).updated_at = now
    ∧ (Spec.Task.complete t exit_code now).exit_code = exit_code := by
  cases exit_code with
  | none => simp [Spec.Task.complete]
  | some c =>
      by_cases hc : c = 0 <;> simp [Spec.Task.complete, hc]

/-- C1 witness: evaluated on a concrete task, `complete(Some 2)` yields
Failed, `complete(Some 0)` and `complete(None)` yield Completed, and
`completed_at` is set. -/
theorem c1_complete_spec_witness :
    (Spec.Task.complete spec_task0 (some 2) ⟨9, 0⟩).status = Spec.TaskStatus.Failed
    ∧ (Spec.Task.complete spec_task0 (some 0) ⟨9, 0⟩).status = Spec.TaskStatus.Completed
    ∧ (Spec.Task.complete spec_task0 none ⟨9, 0⟩).completed_at = some ⟨9, 0⟩ := by
  refine ⟨(c1_complete_spec spec_task0 (some 2) ⟨9, 0⟩).1.2 ⟨2, rfl, by decide⟩,
          (c1_complete_spec spec_task0 (some 0) ⟨9, 0⟩).2.1.2 ?_,
          (c1_complete_spec spec_task0 none ⟨9, 0⟩).2.2.1⟩
  rintro ⟨c, hc, h0⟩
  cases hc
  exact h0 rfl

/-- C8: for every task, reason and instant, `mark_needs_attention(reason)`
sets status to NeedsAttention, stores the reason verbatim, updates
`updated_at` and leaves `completed_at` unchanged. -/
theorem c8_mark_needs_attention (t : Spec.Task) (reason : String) (now : DateTime) :
    (Spec.Task.mark_needs_attention t reason now).status = Spec.TaskStatus.NeedsAttention
    ∧ (Spec.Task.mark_needs_attention t reason now).attention_reason = some reason
    ∧ (Spec.Task.mark_needs_attention t reason now).updated_at = now
    ∧ (Spec.Task.mark_needs_attention t reason now).completed_at = t.completed_at :=
  ⟨rfl, rfl, rfl, rfl⟩

/-- C2: evaluation of the monitor's idle accounting on a two-process tree
(root pid 1, child pid 2) across two polls in which every CPU sample is
present and unchanged.  The claim (and the spec) say the child's idle
duration must grow by one poll interval per poll (0 then 5); the code
compares the child's current sample (7) against the root's stored previous
sample (10) and hands the detectors an idle duration of 0 at both polls,
while the single shared counter — updated from the root alone — grows to 5. -/
theorem c2_monitor_shared_idle :
    c2_cpu 2 = some 7
    ∧ c2_cpu 1 = some 10
    ∧ Monitor.check_idle_duration c2_ctx0 (c2_cpu 2) Monitor.default_poll_interval = 0
    ∧ c2_ctx1.idle_duration = 5
    ∧ c2_ctx1.last_cpu_time = some 10
    ∧ Monitor.check_idle_duration c2_ctx1 (c2_cpu 2) Monitor.default_poll_interval = 0 := by
  decide

/-- C5 counterexample: on this 101-byte title whose byte 97 is a UTF-8
continuation byte, `Task::new` panics — creation yields no task at all, so
it is not the case that for every input title `create` yields a task obeying
the stated title bound. -/
theorem c5_truncate_counterexample :
    Task.new_title c5_bad_title = none ∧ 100 < c5_bad_title.length := by
  decide

/-- C5 as amended: lengths are byte counts, and the stated behaviour holds
whenever creation does not panic — a title of at most 100 bytes is kept
unchanged; a longer title whose byte 97 starts a character is cut to
exactly 100 bytes ending in "..."; any title that comes back is at most
100 bytes. -/
theorem c5_truncate_amended (title : List Nat) :
    (title.length ≤ 100 → Task.new_title title = some title)
    ∧ (100 < title.length → is_char_boundary title 97 = true →
        Task.new_title title = some (title.take 97 ++ [46, 46, 46])
        ∧ (title.take 97 ++ [46, 46, 46]).length = 100
        ∧ (title.take 97 ++ [46, 46, 46]).drop 97 = [46, 46, 46])
    ∧ (∀ out, Task.new_title title = some out → out.length ≤ 100) := by
  refine ⟨?_, ?_, ?_⟩
  · intro h
    simp [Task.new_title, truncate_title, h]
  · intro h hb
    have hnle : ¬title.length ≤ 100 := not_le.2 h
    have h97 : (title.take 97).length = 97 := by
      rw [List.length_take]
      omega
    refine ⟨?_, ?_, ?_⟩
    · simp [Task.new_title, truncate_title, hnle, hb]
    · simp [List.length_append, h97]
    · exact List.drop_left' h97
  · intro out hout
    by_cases h1 : title.length ≤ 100
    · simp [Task.new_title, truncate_title, h1] at hout
      subst hout
      exact h1
    · by_cases h2 : is_char_boundary title 97 = true
      · simp [Task.new_title, truncate_title, h1, h2] at hout
        have h97 : (title.take 97).length = 97 := by
          rw [List.length_take]
          omega
        rw [← hout]
        simp [List.length_append, h97]
      · simp [Task.new_title, truncate_title, h1, h2] at hout

/-- C5 witness: a 101-byte ASCII title is truncated to exactly 100 bytes
ending in "...". -/
theorem c5_truncate_witness :
    Task.new_title (List.replicate 101 97) =
      some ((List.replicate 101 97).take 97 ++ [46, 46, 46])
    ∧ ((List.replicate 101 97).take 97 ++ [46, 46, 46]).length = 100 := by
  have h := (c5_truncate_amended (List.replicate 101 97)).2.1 (by decide) (by decide)
  exact ⟨h.1, h.2.1⟩

/-- C10: the truncation limit is measured in bytes, not characters — a
98-character, 101-byte title is modified — and slicing at the fixed byte
offset 97 ignores character boundaries, so a title whose byte 97 sits
inside a multi-byte character makes `Task::new` panic: creation is not
total over Unicode titles. -/
theorem c10_truncate_bytes :
    (utf8_length c10_chars_title = 98 ∧ 100 < c10_chars_title.length
      ∧ Task.new_title c10_chars_title ≠ some c10_chars_title)
    ∧ (100 < c10_panic_title.length
      ∧ is_char_boundary c10_panic_title 97 = false
      ∧ Task.new_title c10_panic_title = none) := by
  decide

/-- C3 counterexample: inserting `task0` (whose `id` is `None` and whose
`created_at` carries one nanosecond) and fetching it back returns a task
whose `id` is `Some 1` and whose `created_at` is truncated to whole
seconds — not equal to the inserted task in every field. -/
theorem c3_roundtrip_counterexample :
    insert_then_get Database.empty task0 =
      Except.ok (some { task0 with id := some 1, created_at := ⟨0, 0⟩, updated_at := ⟨0, 0⟩ })
    ∧ some (1 : Int) ≠ task0.id
    ∧ (⟨0, 0⟩ : DateTime) ≠ task0.created_at := by
  refine ⟨rfl, by decide, by decide⟩

/-- C3 as amended: for a `task_id` not yet present, insert followed by
get-by-id succeeds and returns the inserted task unchanged in every field
except `id`, which comes back as the store-assigned rowid, and the three
timestamps, which come back truncated to whole seconds. -/
theorem c3_roundtrip_amended (db : Database) (t : Task)
    (hfresh : ∀ r ∈ db.rows, (r.task_id == t.task_id) = false) :
    insert_then_get db t =
      Except.ok (some
        { t with
          id := some db.next_id
          created_at := ⟨t.created_at.sec, 0⟩
          updated_at := ⟨t.updated_at.sec, 0⟩
          completed_at := t.completed_at.map (fun d => ⟨d.sec, 0⟩) }) := by
  have hany : db.rows.any (fun r => r.task_id == t.task_id) = false :=
    any_eq_false_of _ _ hfresh
  have hfind :
      (db.rows ++ [task_to_row db.next_id t]).find? (fun r => r.task_id == t.task_id) =
        some (task_to_row db.next_id t) :=
    find?_append_singleton _ _ _ hfresh (by simp [task_to_row])
  have hrow : row_to_task (task_to_row db.next_id t) =
      Except.ok
        { t with
          id := some db.next_id
          created_at := ⟨t.created_at.sec, 0⟩
          updated_at := ⟨t.updated_at.sec, 0⟩
          completed_at := t.completed_at.map (fun d => ⟨d.sec, 0⟩) } := by
    simp [row_to_task, task_to_row, from_str_as_str, map_wellFormed_bind_decode,
      DateTime.timestamp]
    cases t.completed_at <;> simp [DateTime.timestamp, Function.comp]
  have hinsert : insert_task db t =
      Except.ok (Database.mk (db.rows ++ [task_to_row db.next_id t]) (db.next_id + 1),
        db.next_id) := by
    unfold insert_task
    rw [hany]
    rfl
  have hget : get_task_by_id
        (Database.mk (db.rows ++ [task_to_row db.next_id t]) (db.next_id + 1)) t.task_id =
      (row_to_task (task_to_row db.next_id t)).map some := by
    show (match (db.rows ++ [task_to_row db.next_id t]).find? (fun r => r.task_id == t.task_id) with
          | none => Except.ok none
          | some r => (row_to_task r).map some) =
        (row_to_task (task_to_row db.next_id t)).map some
    rw [hfind]
  unfold insert_then_get
  rw [hinsert]
  show get_task_by_id
      (Database.mk (db.rows ++ [task_to_row db.next_id t]) (db.next_id + 1)) t.task_id = _
  rw [hget, hrow]
  rfl

/-- C3 witness: the amended round-trip applied to the concrete `task0` in
an empty store. -/
theorem c3_roundtrip_witness :
    insert_then_get Database.empty task0 =
      Except.ok (some { task0 with id := some 1, created_at := ⟨0, 0⟩, updated_at := ⟨0, 0⟩ }) := by
  have h := c3_roundtrip_amended Database.empty task0 (by intro r hr; cases hr)
  exact h

/-- C4 counterexample: updating a task whose `task_id` is absent (the store
is empty) returns success and leaves the store unchanged — it does not
fail with NotFound. -/
theorem c4_update_counterexample :
    update_task Database.empty task0 = Except.ok Database.empty
    ∧ (update_task Database.empty task0).isOk = true := by
  exact ⟨rfl, rfl⟩

/-- C4 as amended: `update` never fails — when the `task_id` is absent it
succeeds as a no-op; when present it overwrites the matching row's columns
(all except `id`, `task_id` and `created_at`, which the UPDATE does not
set) with the task's serialized fields. -/
theorem c4_update_amended (db : Database) (t : Task) :
    (update_task db t).isOk = true
    ∧ ((∀ r ∈ db.rows, (r.task_id == t.task_id) = false) → update_task db t = Except.ok db)
    ∧ (∀ r ∈ db.rows, (r.task_id == t.task_id) = true →
        ∃ db1, update_task db t = Except.ok db1 ∧ update_row r t ∈ db1.rows)
    ∧ (∀ r, (update_row r t).id = r.id
        ∧ (update_row r t).task_id = r.task_id
        ∧ (update_row r t).created_at = r.created_at
        ∧ (update_row r t).agent_type = t.agent_type
        ∧ (update_row r t).title = t.title
        ∧ (update_row r t).status = t.status.as_str
        ∧ (update_row r t).updated_at = t.updated_at.timestamp
        ∧ (update_row r t).exit_code = t.exit_code) := by
  refine ⟨rfl, ?_, ?_, ?_⟩
  · intro hfresh
    have hmap : db.rows.map
        (fun r => if r.task_id == t.task_id then update_row r t else r) = db.rows :=
      map_id_of _ _ (fun r hr => by rw [hfresh r hr]; rfl)
    unfold update_task
    rw [hmap]
  · intro r hr hid
    refine ⟨_, rfl, ?_⟩
    have hmem := List.mem_map_of_mem
      (fun x => if x.task_id == t.task_id then update_row x t else x) hr
    simpa [hid] using hmem
  · intro r
    exact ⟨rfl, rfl, rfl, rfl, rfl, rfl, rfl, rfl⟩

/-- C4 witness: the amended statement applied to the concrete `task1`
against a store holding the row of `task0` under the same `task_id`. -/
theorem c4_update_witness :
    (update_task (Database.mk [task_to_row 1 task0] 2) task1).isOk = true := by
  exact (c4_update_amended (Database.mk [task_to_row 1 task0] 2) task1).1

/-- C6: `cleanup_older_than(seconds)` keeps exactly the rows that are not
(Completed with `completed_at` older than `now - seconds`); rows whose
status string is running, needs_attention or failed always survive; and
the returned count plus the surviving rows add up to the original row
count. -/
theorem c6_cleanup_exact (db : Database) (now secs : Int) :
    (∀ r, r ∈ (cleanup_old_completed db now secs).1.rows ↔
        r ∈ db.rows ∧
          ¬(r.status = "completed" ∧ ∃ ts, r.completed_at = some ts ∧ ts < now - secs))
    ∧ (∀ r ∈ db.rows,
        r.status = "running" ∨ r.status = "needs_attention" ∨ r.status = "failed" →
          r ∈ (cleanup_old_completed db now secs).1.rows)
    ∧ (cleanup_old_completed db now secs).2 + (cleanup_old_completed db now secs).1.rows.length
        = db.rows.length := by
  refine ⟨mem_cleanup_iff db now secs, ?_, ?_⟩
  · intro r hr hst
    refine (mem_cleanup_iff db now secs r).2 ⟨hr, ?_⟩
    rintro ⟨hc, -⟩
    rcases hst with h | h | h <;> rw [h] at hc <;> exact absurd hc (by decide)
  · have hle : (db.rows.filter (fun x => !(completed_deletable x (now - secs)))).length
        ≤ db.rows.length := List.length_filter_le _ _
    have h2 : (cleanup_old_completed db now secs).2 =
        db.rows.length -
          (db.rows.filter (fun x => !(completed_deletable x (now - secs)))).length := rfl
    have h1 : (cleanup_old_completed db now secs).1.rows =
        db.rows.filter (fun x => !(completed_deletable x (now - secs))) := rfl
    rw [h1, h2]
    omega

/-- C6 witness: on a store with one old Completed row and one old Running
row, cleanup removes the Completed row, keeps the Running row, and reports
one removal. -/
theorem c6_cleanup_witness :
    row_running ∈ (cleanup_old_completed db2 100 10).1.rows
    ∧ row_completed_old ∉ (cleanup_old_completed db2 100 10).1.rows
    ∧ (cleanup_old_completed db2 100 10).2 + (cleanup_old_completed db2 100 10).1.rows.length
        = db2.rows.length := by
  refine ⟨(c6_cleanup_exact db2 100 10).2.1 row_running ?_ (Or.inl rfl), ?_,
    (c6_cleanup_exact db2 100 10).2.2⟩
  · exact List.mem_cons_of_mem _ (List.mem_cons_self _ _)
  · intro hmem
    exact (((c6_cleanup_exact db2 100 10).1 row_completed_old).1 hmem).2
      ⟨rfl, 0, rfl, by decide⟩

/-- C7: reading a stored row tolerates malformed JSON in the `context` and
`metadata` columns — the read succeeds with that field absent — while an
unrecognized status string makes the row's read fail with the parse
error. -/
theorem c7_row_parse (r : Row) :
    (∀ st, TaskStatus.from_str r.status = Except.ok st →
        (row_to_task r).isOk = true
        ∧ (∀ n, r.context = some (JsonCol.malformed n) →
            (row_to_task r).toOption.map Task.context = some none)
        ∧ (∀ n, r.metadata = some (JsonCol.malformed n) →
            (row_to_task r).toOption.map Task.metadata = some none))
    ∧ (∀ e, TaskStatus.from_str r.status = Except.error e → row_to_task r = Except.error e) := by
  constructor
  · intro st hst
    refine ⟨?_, ?_, ?_⟩
    · simp [row_to_task, hst, Except.isOk, Except.toBool]
    · intro n hn
      simp [row_to_task, hst, hn, JsonCol.decode, Except.toOption]
    · intro n hn
      simp [row_to_task, hst, hn, JsonCol.decode, Except.toOption]
  · intro e he
    simp [row_to_task, he]

/-- C7 witness: a row with malformed `context`/`metadata` JSON and valid
status reads back successfully with both fields absent; a row whose status
string is "paused" fails with the parse error. -/
theorem c7_row_parse_witness :
    (row_to_task row_bad_json).isOk = true
    ∧ (row_to_task row_bad_json).toOption.map Task.context = some none
    ∧ (row_to_task row_bad_json).toOption.map Task.metadata = some none
    ∧ row_to_task row_bad_status = Except.error "Invalid task status: paused" :=
  ⟨((c7_row_parse row_bad_json).1 TaskStatus.Running rfl).1,
    ((c7_row_parse row_bad_json).1 TaskStatus.Running rfl).2.1 0 rfl,
    ((c7_row_parse row_bad_json).1 TaskStatus.Running rfl).2.2 1 rfl,
    (c7_row_parse row_bad_status).2 "Invalid task status: paused" rfl⟩

/-- C9: the bridge reader decodes the 4-byte little-endian length first;
a declared length over 1 MiB is rejected with an error whatever bytes
follow (the body is never parsed); a length of at most 1048576 — including
exactly 1048576 — makes it read exactly that many bytes and hand them to
the JSON parser. -/
theorem c9_read_message (b0 b1 b2 b3 : Nat) (body rest : List Nat) :
    (1048576 < u32_from_le_bytes b0 b1 b2 b3 →
        read_message (b0 :: b1 :: b2 :: b3 :: rest) = Except.error "Message too large")
    ∧ (u32_from_le_bytes b0 b1 b2 b3 ≤ 1048576 →
        body.length = u32_from_le_bytes b0 b1 b2 b3 →
        read_message (b0 :: b1 :: b2 :: b3 :: (body ++ rest)) = Except.ok body) := by
  constructor
  · intro h
    show (if 1048576 < u32_from_le_bytes b0 b1 b2 b3 then
            Except.error "Message too large"
          else if rest.length < u32_from_le_bytes b0 b1 b2 b3 then
            Except.error "Failed to read message body"
          else Except.ok (rest.take (u32_from_le_bytes b0 b1 b2 b3))) =
        Except.error "Message too large"
    rw [if_pos h]
  · intro h hlen
    show (if 1048576 < u32_from_le_bytes b0 b1 b2 b3 then
            Except.error "Message too large"
          else if (body ++ rest).length < u32_from_le_bytes b0 b1 b2 b3 then
            Except.error "Failed to read message body"
          else Except.ok ((body ++ rest).take (u32_from_le_bytes b0 b1 b2 b3))) =
        Except.ok body
    rw [if_neg (not_lt.2 h)]
    rw [if_neg (by rw [List.length_append]; omega)]
    rw [← hlen, List.take_left]

/-- C9 witness: a declared length of 2 over the stream `[2,0,0,0,7,8,9]`
reads exactly the two body bytes `[7,8]`. -/
theorem c9_read_message_witness :
    read_message [2, 0, 0, 0, 7, 8, 9] = Except.ok [7, 8] := by
  exact (c9_read_message 2 0 0 0 [7, 8] [9]).2 (by decide) (by decide)

end AgentInbox


